import Mathlib

/-!
Verification of the NASA NEO ETL pipeline (`src/etl/main.py`).

The pipeline is a four-step linear flow: fetch the NEO feed for today's UTC
date, archive the raw JSON to blob storage, flatten it into rows, and stream
the rows into a warehouse table.  We give a shallow embedding: JSON values are
an inductive type, `transform_records` is translated statement by statement,
and the effectful steps are modelled as pure functions from an explicit
configuration and external world to a result together with a trace of the
external actions they perform.
-/

namespace NeoEtl

/-- A JSON number, kept in the exact decimal form `mantissa * 10 ^ exponent`
in which JSON texts write numbers. -/
structure Decimal where
  mantissa : Int
  exponent : Int
  deriving DecidableEq, Repr

/-- JSON values, as decoded from the feed API response (`resp.json()`). -/
inductive Json where
  | null
  | bool (b : Bool)
  | num (d : Decimal)
  | str (s : String)
  | arr (elems : List Json)
  | obj (fields : List (String × Json))

/-- Rational value of a decimal. -/
def Decimal.toRat (d : Decimal) : ℚ :=
  if 0 ≤ d.exponent then ((d.mantissa * 10 ^ d.exponent.toNat : ℤ) : ℚ)
  else (d.mantissa : ℚ) / ((10 ^ (-d.exponent).toNat : ℤ) : ℚ)

/-- Association-list lookup, as Python dict subscripting `d[key]` (first
binding wins; Python dicts cannot repeat a key). -/
def lookupStr : List (String × Json) → String → Option Json
  | [], _ => none
  | (k, v) :: rest, key => if k = key then some v else lookupStr rest key

/-- Python `value[key]` for a string key: succeeds only on a dict holding the
key; a missing key (KeyError) or a non-dict receiver (TypeError) is an
error, modelled as `none`. -/
def Json.index : Json → String → Option Json
  | .obj fields, key => lookupStr fields key
  | _, _ => none

/-- Python truthiness (`not x`) of a decoded JSON value: `None`, `False`,
numeric zero, and empty strings/lists/dicts are falsy. -/
def falsy : Json → Bool
  | .null => true
  | .bool b => !b
  | .num d => decide (d.toRat = 0)
  | .str s => s.isEmpty
  | .arr xs => xs.isEmpty
  | .obj fs => fs.isEmpty

/-- Numeric value of a run of decimal digit characters, most significant
digit first. -/
def natOfDigitsChars (cs : List Char) : ℕ :=
  cs.foldl (fun a c => 10 * a + (c.toNat - 48)) 0

/-- `10 ^ e` over the rationals for an integer exponent. -/
def qpow10 (e : ℤ) : ℚ :=
  if 0 ≤ e then (10 : ℚ) ^ e.toNat else 1 / (10 : ℚ) ^ (-e).toNat

/-- Exponent suffix of a float literal: optional sign then at least one
digit, consuming the rest of the string. -/
def pyExpPart (cs : List Char) : Option ℤ :=
  if cs.head? = some '-' then
    if !cs.tail.isEmpty && cs.tail.all Char.isDigit then
      some (-(natOfDigitsChars cs.tail : ℤ))
    else none
  else if cs.head? = some '+' then
    if !cs.tail.isEmpty && cs.tail.all Char.isDigit then
      some ((natOfDigitsChars cs.tail : ℤ))
    else none
  else
    if !cs.isEmpty && cs.all Char.isDigit then
      some ((natOfDigitsChars cs : ℤ))
    else none

/-- Unsigned part of a Python float literal:
`digits [. digits] [(e|E) [sign] digits]` with at least one digit in the
integer or fractional part, consuming the whole string. -/
def pyFloatCore (cs : List Char) : Option ℚ :=
  let ip := cs.takeWhile Char.isDigit
  let rest := cs.dropWhile Char.isDigit
  let fp := if rest.head? = some '.' then rest.tail.takeWhile Char.isDigit else []
  let rest2 := if rest.head? = some '.' then rest.tail.dropWhile Char.isDigit else rest
  if ip.isEmpty && fp.isEmpty then none
  else
    let mant : ℚ := (natOfDigitsChars (ip ++ fp) : ℚ) / (10 : ℚ) ^ fp.length
    if rest2.isEmpty then some mant
    else if rest2.head? = some 'e' || rest2.head? = some 'E' then
      (pyExpPart rest2.tail).map (fun e => mant * qpow10 e)
    else none

/-- Model of Python `float(s)` on a string: optional sign then `pyFloatCore`.
(The special forms inf/nan, embedded underscores and surrounding whitespace
that CPython also accepts are not modelled; the feed's numeric strings are
plain decimal literals.) -/
def pyFloatChars (cs : List Char) : Option ℚ :=
  if cs.head? = some '-' then (pyFloatCore cs.tail).map (fun q => -q)
  else if cs.head? = some '+' then pyFloatCore cs.tail
  else pyFloatCore cs

/-- Model of Python `float(x)` on a decoded JSON value: numbers give their
value, booleans give 0/1, strings are parsed as float literals; `None`,
lists and dicts raise `TypeError`, modelled as `none`. -/
def pyFloat : Json → Option ℚ
  | .num d => some d.toRat
  | .bool b => some (if b then 1 else 0)
  | .str s => pyFloatChars s.data
  | _ => none

/-- One flattened row, the `record` dict built inside `transform_records`.
Fields coerced with `float(...)` in the source are rationals here (exact
values; no rounding behaviour of the source is at issue in the claims),
fields copied verbatim keep their JSON value. -/
structure AsteroidRecord where
  asteroid_id : Json
  name : Json
  absolute_magnitude_h : ℚ
  estimated_diameter_min_km : ℚ
  estimated_diameter_max_km : ℚ
  is_potentially_hazardous : Json
  close_approach_date : Json
  relative_velocity_km_s : ℚ
  miss_distance_km : ℚ
  orbiting_body : Json
  ingestion_timestamp : String

/-- The nested `float(obj["estimated_diameter"]["kilometers"][...])`
lookups of the `record` dict literal: both diameter bounds. -/
def diamPart (o : Json) : Option (ℚ × ℚ) :=
  (Json.index o "estimated_diameter").bind fun ed =>
  (Json.index ed "kilometers").bind fun km =>
  (Json.index km "estimated_diameter_min").bind fun dminJ =>
  (pyFloat dminJ).bind fun dmin =>
  (Json.index km "estimated_diameter_max").bind fun dmaxJ =>
  (pyFloat dmaxJ).bind fun dmax =>
  some (dmin, dmax)

/-- The fields of the `record` dict literal drawn from the asteroid object
`obj`, in source order: identifier, name, magnitude, diameter bounds,
hazard flag. -/
structure ObjPart where
  aid : Json
  nm : Json
  mag : ℚ
  dmin : ℚ
  dmax : ℚ
  haz : Json

/-- Evaluates the object-side lookups of the `record` dict literal, in the
order the dict literal writes them. -/
def objPart (o : Json) : Option ObjPart :=
  (Json.index o "neo_reference_id").bind fun aid =>
  (Json.index o "name").bind fun nm =>
  (Json.index o "absolute_magnitude_h").bind fun magJ =>
  (pyFloat magJ).bind fun mag =>
  (diamPart o).bind fun dd =>
  (Json.index o "is_potentially_hazardous_asteroid").bind fun haz =>
  some ⟨aid, nm, mag, dd.1, dd.2, haz⟩

/-- Evaluates the approach-side lookups of the `record` dict literal, in the
order the dict literal writes them: approach date, relative velocity, miss
distance, orbiting body. -/
def approachPart (a : Json) : Option (Json × ℚ × ℚ × Json) :=
  (Json.index a "close_approach_date").bind fun cadte =>
  (Json.index a "relative_velocity").bind fun rvJ =>
  (Json.index rvJ "kilometers_per_second").bind fun rvk =>
  (pyFloat rvk).bind fun rv =>
  (Json.index a "miss_distance").bind fun mdJ =>
  (Json.index mdJ "kilometers").bind fun mdk =>
  (pyFloat mdk).bind fun md =>
  (Json.index a "orbiting_body").bind fun ob =>
  some (cadte, rv, md, ob)

/-- The `record = { ... }` dict literal in `transform_records`, evaluated for
one asteroid object `o` and its first close-approach entry `a`; any missing
key or failing `float(...)` coercion raises, modelled as `none`.  `ts` is the
`datetime.utcnow().isoformat()` reading taken while building this record.
The literal is staged into `objPart` then `approachPart`, preserving the
source's field evaluation order. -/
def buildRecord (o a : Json) (ts : String) : Option AsteroidRecord :=
  (objPart o).bind fun op =>
  (approachPart a).bind fun ap =>
  some { asteroid_id := op.aid, name := op.nm, absolute_magnitude_h := op.mag,
         estimated_diameter_min_km := op.dmin, estimated_diameter_max_km := op.dmax,
         is_potentially_hazardous := op.haz, close_approach_date := ap.1,
         relative_velocity_km_s := ap.2.1, miss_distance_km := ap.2.2.1,
         orbiting_body := ap.2.2.2, ingestion_timestamp := ts }

/-- The `for obj in neos` loop of `transform_records`.  Each object must hold
`close_approach_data` (missing key raises); a falsy value there skips the
object (`continue`); otherwise `[0]` takes the first entry — a truthy value
that is not a list raises in Python (`TypeError`/`KeyError` on `[0]` or on the
field lookups that follow), modelled as `none`.  `k` counts records appended
so far, i.e. the `datetime.utcnow()` readings already taken, so the next
record is stamped with `clock k`. -/
def transformLoop (clock : ℕ → String) : List Json → ℕ → Option (List AsteroidRecord)
  | [], _ => some []
  | o :: rest, k =>
    match o.index "close_approach_data" with
    | none => none
    | some cad =>
      if falsy cad then transformLoop clock rest k
      else
        match cad with
        | .arr (a :: _) =>
          match buildRecord o a (clock k) with
          | none => none
          | some r => (transformLoop clock rest (k + 1)).map (fun rs => r :: rs)
        | _ => none

/-- `transform_records(data, date)` from `src/etl/main.py`.  The date is
passed in its string form `str(date)`; the current-time source
`datetime.utcnow().isoformat()` is modelled as the explicit stream `clock`
of successive readings.  `data["near_earth_objects"]` raises when `data` is
not a dict or lacks the key; `.get(str(date), [])` requires a dict (and
defaults to the empty list); iterating a non-list sub-collection raises. -/
def transform_records (data : Json) (date : String) (clock : ℕ → String) :
    Option (List AsteroidRecord) :=
  match data.index "near_earth_objects" with
  | some (Json.obj sub) =>
    match (lookupStr sub date).getD (Json.arr []) with
    | Json.arr objs => transformLoop clock objs 0
    | _ => none
  | _ => none

/-! ## Serialization: the `json.dumps` call of the Archiver -/

/-- Opening brace character. -/
def lbrace : Char := Char.ofNat 123

/-- Closing brace character. -/
def rbrace : Char := Char.ofNat 125

/-- String-body escaping done by `json.dumps`: quote and backslash get a
backslash.  (`json.dumps` also writes control and non-ASCII characters as
`\uXXXX`; that purely lexical detail plays no role in the round-trip
property and is not modelled.) -/
def escChars : List Char → List Char
  | [] => []
  | c :: rest => (if c = '"' ∨ c = '\\' then ['\\', c] else [c]) ++ escChars rest

/-- Decimal digit character for `n < 10`. -/
def digitChar (n : ℕ) : Char :=
  match n with
  | 0 => '0' | 1 => '1' | 2 => '2' | 3 => '3' | 4 => '4'
  | 5 => '5' | 6 => '6' | 7 => '7' | 8 => '8' | _ => '9'

/-- Decimal numeral of a natural number, most significant digit first. -/
def natChars (n : ℕ) : List Char :=
  if n = 0 then ['0'] else ((Nat.digits 10 n).reverse).map digitChar

/-- Signed decimal numeral of an integer. -/
def intChars (i : ℤ) : List Char :=
  if i < 0 then '-' :: natChars i.natAbs else natChars i.toNat

/-- Textual form of a JSON number `m·10^e`, written `<m>e<e>` (scientific
notation, valid JSON; `json.dumps` writes a plain or pointed numeral for the
same value — a lexical difference without effect on the value read back). -/
def dumpsNum (d : Decimal) : List Char :=
  intChars d.mantissa ++ 'e' :: intChars d.exponent

mutual

/-- `json.dumps` of one JSON value, as a character list (compact separators;
`json.dumps`'s default adds a space after `,` and `:`, again without effect
on the value read back). -/
def dumpsVal : Json → List Char
  | .null => "null".data
  | .bool true => "true".data
  | .bool false => "false".data
  | .num d => dumpsNum d
  | .str s => '"' :: (escChars s.data ++ ['"'])
  | .arr xs => '[' :: (dumpsElems xs ++ [']'])
  | .obj fs => lbrace :: (dumpsMembers fs ++ [rbrace])

/-- Comma-separated rendering of array elements. -/
def dumpsElems : List Json → List Char
  | [] => []
  | [x] => dumpsVal x
  | x :: y :: t => dumpsVal x ++ ',' :: dumpsElems (y :: t)

/-- Comma-separated rendering of object members, each `"key":value`. -/
def dumpsMembers : List (String × Json) → List Char
  | [] => []
  | [(k, v)] => '"' :: (escChars k.data ++ '"' :: ':' :: dumpsVal v)
  | (k, v) :: m :: t =>
    ('"' :: (escChars k.data ++ '"' :: ':' :: dumpsVal v)) ++ ',' :: dumpsMembers (m :: t)

end

/-- `json.dumps(data)`: the text the Archiver uploads. -/
def dumps (j : Json) : String := ⟨dumpsVal j⟩

/-! ## The effectful pipeline

The three service clients (requests, Cloud Storage, BigQuery) are modelled by
an explicit `World` the invocation observes, and every externally visible
operation is recorded in a trace of `Action`s. -/

/-- Fixed dataset name (`BQ_DATASET`). -/
def BQ_DATASET : String := "nasa_neo"

/-- Fixed table name (`BQ_TABLE`). -/
def BQ_TABLE : String := "raw_neo_feed"

/-- The three environment values read at module import;
`os.environ.get` yields the value or `None`. -/
structure Config where
  nasa_api_key : Option String
  bucket_name : Option String
  bq_project : Option String

/-- Python f-string rendering of an optional environment value
(`None` prints as `"None"`). -/
def optStr : Option String → String
  | none => "None"
  | some s => s

/-- Python truthiness of an environment value: present and non-empty. -/
def envTruthy : Option String → Bool
  | none => false
  | some s => !s.isEmpty

/-- The `NASA_API_KEY and BUCKET_NAME and BQ_PROJECT` check of the entry
point. -/
def configPresent (cfg : Config) : Bool :=
  envTruthy cfg.nasa_api_key && envTruthy cfg.bucket_name && envTruthy cfg.bq_project

/-- A calendar date, as `datetime.utcnow().date()`. -/
structure Date where
  year : ℕ
  month : ℕ
  day : ℕ

/-- Zero-padded two-digit rendering (`{n:02d}`). -/
def pad2 (n : ℕ) : String := if n < 10 then "0" ++ toString n else toString n

/-- Zero-padded four-digit rendering, as `datetime.date` prints years. -/
def pad4 (n : ℕ) : String :=
  if n < 10 then "000" ++ toString n
  else if n < 100 then "00" ++ toString n
  else if n < 1000 then "0" ++ toString n
  else toString n

/-- Python `str(date)`: ISO `YYYY-MM-DD`. -/
def dateStr (d : Date) : String :=
  pad4 d.year ++ "-" ++ pad2 d.month ++ "-" ++ pad2 d.day

/-- The external world one invocation observes: the current UTC date, the
decoded feed body a successful fetch returns, the per-row errors the
warehouse insert API reports for a given row batch, and the stream of
`datetime.utcnow().isoformat()` readings taken during the transform. -/
structure World where
  today : Date
  feedResponse : Json
  insertErrors : List AsteroidRecord → List String
  clock : ℕ → String

/-- Externally visible operations of one invocation: a `print` log line, the
feed HTTP GET, the blob-storage upload, the warehouse streaming insert. -/
inductive Action where
  | log (msg : String)
  | httpGet (url : String)
  | gcsWrite (bucket path content : String)
  | bqInsert (table : String) (rows : List AsteroidRecord)

/-- Whether an action touches an external service (log lines do not). -/
def Action.isExternal : Action → Bool
  | .log _ => false
  | _ => true

/-- Whether an action is a warehouse insert. -/
def Action.isInsert : Action → Bool
  | .bqInsert _ _ => true
  | _ => false

/-- `fetch_nasa_data()`: builds the feed URL for today's UTC date (start and
end of range both today) and returns the decoded JSON body plus the date
used.  A non-success status or malformed body raises and propagates; the
claims under verification all concern runs past a successful fetch, so the
world supplies the decoded body. -/
def fetch_nasa_data (cfg : Config) (w : World) : (Json × Date) × List Action :=
  ((w.feedResponse, w.today),
   [Action.httpGet ("https://api.nasa.gov/neo/rest/v1/feed?start_date="
      ++ dateStr w.today ++ "&end_date=" ++ dateStr w.today
      ++ "&api_key=" ++ optStr cfg.nasa_api_key)])

/-- Blob path `raw/neo/{year}/{month:02d}/{day:02d}/neo_{date}.json` (the
year is not zero-padded in the directory component). -/
def blobPath (d : Date) : String :=
  "raw/neo/" ++ toString d.year ++ "/" ++ pad2 d.month ++ "/" ++ pad2 d.day
    ++ "/neo_" ++ dateStr d ++ ".json"

/-- `save_raw_to_gcs(data, date)`: serialize the payload with `json.dumps`,
upload it to the date-keyed path, then log the destination. -/
def save_raw_to_gcs (cfg : Config) (data : Json) (d : Date) : List Action :=
  [Action.gcsWrite (optStr cfg.bucket_name) (blobPath d) (dumps data),
   Action.log ("Raw JSON saved to gs://" ++ optStr cfg.bucket_name ++ "/" ++ blobPath d)]

/-- `load_to_bigquery(records)`: one `insert_rows_json` call on the fixed
fully-qualified table; per-row errors reported by the API are logged and
never raised. -/
def load_to_bigquery (cfg : Config) (w : World) (records : List AsteroidRecord) :
    List Action :=
  let table_id := optStr cfg.bq_project ++ "." ++ BQ_DATASET ++ "." ++ BQ_TABLE
  let errors := w.insertErrors records
  [Action.bqInsert table_id records] ++
    (if errors.isEmpty then
      [Action.log ("Inserted " ++ toString records.length ++ " rows into " ++ table_id)]
    else [Action.log ("Errors occurred: " ++ String.intercalate "; " errors)])

/-- An HTTP response from the entry point: the plain-text error tuple
`(msg, 500)`, or the success tuple whose JSON body is kept structured
(`json.dumps` of it is the wire form). -/
inductive Resp where
  | err (body : String) (status : ℕ)
  | ok (body : Json) (status : ℕ)

/-- `etl_nasa_neo(request)`: the HTTP entry point.  The result is `none` when
an unhandled exception propagates to the hosting runtime (in this model only
the transform can raise), paired with the trace of actions performed up to
that point.  The `print` inside `transform_records` is emitted here, after
the transform returns. -/
def etl_nasa_neo (cfg : Config) (w : World) : Option Resp × List Action :=
  let tr0 := [Action.log "Starting NASA NEO ETL..."]
  if configPresent cfg = false then
    (some (.err "Missing required environment variables" 500),
     tr0 ++ [Action.log "Missing required environment variables"])
  else
    let fr := fetch_nasa_data cfg w
    let tr2 := save_raw_to_gcs cfg fr.1.1 fr.1.2
    match transform_records fr.1.1 (dateStr fr.1.2) w.clock with
    | none => (none, tr0 ++ fr.2 ++ tr2)
    | some records =>
      let tr3 := [Action.log ("Transformed " ++ toString records.length ++ " records")]
      let tr4 := if records.isEmpty then [] else load_to_bigquery cfg w records
      (some (.ok (Json.obj [("status", .str "success"),
                            ("rows_inserted", .num ⟨(records.length : ℤ), 0⟩),
                            ("date", .str (dateStr fr.1.2))]) 200),
       tr0 ++ fr.2 ++ tr2 ++ tr3 ++ tr4)

/-- The close-approach entry of the spec §8 end-to-end example payload. -/
def exampleApproach : Json :=
  .obj [("close_approach_date", .str "2024-05-01"),
        ("relative_velocity", .obj [("kilometers_per_second", .str "12.4")]),
        ("miss_distance", .obj [("kilometers", .str "450000")]),
        ("orbiting_body", .str "Earth")]

/-- The asteroid object of the spec §8 end-to-end example payload. -/
def exampleObject : Json :=
  .obj [("neo_reference_id", .str "2440012"),
        ("name", .str "12 Foo"),
        ("absolute_magnitude_h", .str "19.3"),
        ("estimated_diameter",
          .obj [("kilometers",
            .obj [("estimated_diameter_min", .num ⟨3, -1⟩),
                  ("estimated_diameter_max", .num ⟨7, -1⟩)])]),
        ("is_potentially_hazardous_asteroid", .bool false),
        ("close_approach_data", .arr [exampleApproach])]

/-- The spec §8 end-to-end example feed payload for date 2024-05-01. -/
def examplePayload : Json :=
  .obj [("near_earth_objects", .obj [("2024-05-01", .arr [exampleObject])])]

/-- A feed payload holding exactly the given objects under the given date
key. -/
def mkFeed (date : String) (objs : List Json) : Json :=
  .obj [("near_earth_objects", .obj [(date, .arr objs)])]

/-- The row the spec §8 example asks for, parametrised by the ingestion
timestamp reading. -/
def exampleRecord (ts : String) : AsteroidRecord :=
  { asteroid_id := .str "2440012", name := .str "12 Foo",
    absolute_magnitude_h := 193/10, estimated_diameter_min_km := 3/10,
    estimated_diameter_max_km := 7/10, is_potentially_hazardous := .bool false,
    close_approach_date := .str "2024-05-01", relative_velocity_km_s := 62/5,
    miss_distance_km := 450000, orbiting_body := .str "Earth",
    ingestion_timestamp := ts }

/-- Evaluation of the transform on the spec §8 example payload. -/
theorem example_eval (clock : ℕ → String) :
    transform_records examplePayload "2024-05-01" clock
      = some [exampleRecord (clock 0)] := by
  simp +decide [transform_records, transformLoop, buildRecord, objPart, diamPart,
    approachPart, pyFloat, pyFloatChars, pyFloatCore, pyExpPart, natOfDigitsChars,
    qpow10, falsy, Json.index, lookupStr, examplePayload, exampleObject,
    exampleApproach, Decimal.toRat, exampleRecord]
  norm_num

/-- Evaluation of the transform on a feed carrying the example object
twice: two records, stamped with the first and second clock readings. -/
theorem example2_eval (clock : ℕ → String) :
    transform_records (mkFeed "2024-05-01" [exampleObject, exampleObject])
        "2024-05-01" clock
      = some [exampleRecord (clock 0), exampleRecord (clock 1)] := by
  simp +decide [transform_records, transformLoop, buildRecord, objPart, diamPart,
    approachPart, pyFloat, pyFloatChars, pyFloatCore, pyExpPart, natOfDigitsChars,
    qpow10, falsy, Json.index, lookupStr, mkFeed, exampleObject,
    exampleApproach, Decimal.toRat, exampleRecord]
  norm_num

/-- The loop never returns more records than it was given objects. -/
theorem transformLoop_length (clock : ℕ → String) :
    ∀ (objs : List Json) (k : ℕ) (records : List AsteroidRecord),
      transformLoop clock objs k = some records → records.length ≤ objs.length := by
  intro objs
  induction objs with
  | nil =>
    intro k records h
    simp only [transformLoop, Option.some.injEq] at h
    simp [← h]
  | cons o rest ih =>
    intro k records h
    simp only [transformLoop] at h
    split at h
    · exact absurd h (by simp)
    · split at h
      · exact (ih _ _ h).trans (by simp)
      · split at h
        · split at h
          · exact absurd h (by simp)
          · rw [Option.map_eq_some'] at h
            obtain ⟨rs, hrs, hcons⟩ := h
            rw [← hcons]
            simpa using Nat.succ_le_succ (ih _ _ hrs)
        · exact absurd h (by simp)

/-- A successfully built record carries the timestamp it was given. -/
theorem buildRecord_ts (o a : Json) (ts : String) (r : AsteroidRecord)
    (h : buildRecord o a ts = some r) : r.ingestion_timestamp = ts := by
  simp only [buildRecord, Option.bind_eq_some, Option.some.injEq] at h
  obtain ⟨op, hop, ap, hap, hr⟩ := h
  rw [← hr]

/-- The `k`-th appended record is stamped with the `k`-th clock reading:
the returned batch's timestamps are the consecutive clock readings starting
at reading `k`. -/
theorem transformLoop_timestamps (clock : ℕ → String) :
    ∀ (objs : List Json) (k : ℕ) (records : List AsteroidRecord),
      transformLoop clock objs k = some records →
      records.map (fun r => r.ingestion_timestamp)
        = (List.range' k records.length).map clock := by
  intro objs
  induction objs with
  | nil =>
    intro k records h
    simp only [transformLoop, Option.some.injEq] at h
    simp [← h]
  | cons o rest ih =>
    intro k records h
    simp only [transformLoop] at h
    split at h
    · exact absurd h (by simp)
    · split at h
      · exact ih _ _ h
      · split at h
        · split at h
          · exact absurd h (by simp)
          · rename_i a t hne hcad r hr
            rw [Option.map_eq_some'] at h
            obtain ⟨rs, hrs, hcons⟩ := h
            rw [← hcons]
            simp only [List.map_cons, List.length_cons, List.range'_succ,
              buildRecord_ts _ _ _ _ hr, ih _ _ hrs]
        · exact absurd h (by simp)

/-- On a `mkFeed` payload queried for its own date, the transform is exactly
the loop over the given objects. -/
theorem transform_mkFeed (date : String) (objs : List Json) (clock : ℕ → String) :
    transform_records (mkFeed date objs) date clock = transformLoop clock objs 0 := by
  simp [transform_records, mkFeed, Json.index, lookupStr]

/-- A successfully built record presupposes that every required field
lookup, object-level and nested, succeeded. -/
theorem buildRecord_lookups (o a : Json) (ts : String) (r : AsteroidRecord)
    (h : buildRecord o a ts = some r) :
    (Json.index o "neo_reference_id").isSome ∧
    (Json.index o "name").isSome ∧
    (Json.index o "absolute_magnitude_h").isSome ∧
    (Json.index o "estimated_diameter").isSome ∧
    (Json.index o "is_potentially_hazardous_asteroid").isSome ∧
    (∀ ed, Json.index o "estimated_diameter" = some ed →
      (Json.index ed "kilometers").isSome ∧
      ∀ km, Json.index ed "kilometers" = some km →
        (Json.index km "estimated_diameter_min").isSome ∧
        (Json.index km "estimated_diameter_max").isSome) ∧
    (Json.index a "close_approach_date").isSome ∧
    (Json.index a "relative_velocity").isSome ∧
    (∀ rv, Json.index a "relative_velocity" = some rv →
      (Json.index rv "kilometers_per_second").isSome) ∧
    (Json.index a "miss_distance").isSome ∧
    (∀ md, Json.index a "miss_distance" = some md →
      (Json.index md "kilometers").isSome) ∧
    (Json.index a "orbiting_body").isSome := by
  simp only [buildRecord, objPart, diamPart, approachPart,
    Option.bind_eq_some, Option.some.injEq] at h
  obtain ⟨op, ⟨aid, h1, nm, h2, magJ, h3, mag, h4, dd,
      ⟨ed, h5, km, h6, dminJ, h7, dmin, h8, dmaxJ, h9, dmax, h10, hdd⟩,
      haz, h11, hop⟩,
    ap, ⟨cadte, h12, rvJ, h13, rvk, h14, rv, h15, mdJ, h16, mdk, h17,
      md, h18, ob, h19, hap⟩, hrec⟩ := h
  refine ⟨by simp [h1], by simp [h2], by simp [h3], by simp [h5], by simp [h11],
    ?_, by simp [h12], by simp [h13], ?_, by simp [h16], ?_, by simp [h19]⟩
  · intro ed2 hed2
    rw [h5] at hed2
    injection hed2 with he
    subst he
    refine ⟨by simp [h6], ?_⟩
    intro km2 hkm2
    rw [h6] at hkm2
    injection hkm2 with hk
    subst hk
    exact ⟨by simp [h7], by simp [h9]⟩
  · intro rv2 hrv2
    rw [h13] at hrv2
    injection hrv2 with hv
    subst hv
    simp [h14]
  · intro md2 hmd2
    rw [h16] at hmd2
    injection hmd2 with hm
    subst hm
    simp [h17]

/-- C1: for every asteroid object whose close-approach sequence is non-empty
the Transformer builds exactly one record, combining the object's identifier,
name, magnitude, diameter bounds and hazard flag with the approach date,
velocity, miss distance and orbiting body of the FIRST close-approach entry,
coercing the numeric fields to floating point (`buildRecord`); on the spec §8
example payload for 2024-05-01 it yields exactly one record, whose
asteroid_id is "2440012", relative velocity 12.4 and miss distance
450000.0. -/
theorem claim1_first_approach :
    (∀ (obj a : Json) (t : List Json) (date : String) (clock : ℕ → String),
      Json.index obj "close_approach_data" = some (.arr (a :: t)) →
      transform_records (mkFeed date [obj]) date clock
        = (buildRecord obj a (clock 0)).map (fun r => [r])) ∧
    (∀ clock : ℕ → String,
      transform_records examplePayload "2024-05-01" clock
        = some [exampleRecord (clock 0)]) ∧
    (exampleRecord "T").asteroid_id = Json.str "2440012" ∧
    (exampleRecord "T").relative_velocity_km_s = 124/10 ∧
    (exampleRecord "T").miss_distance_km = 450000 := by
  refine ⟨?_, example_eval, by simp [exampleRecord],
    by norm_num [exampleRecord], by norm_num [exampleRecord]⟩
  intro obj a t date clock hcad
  rw [transform_mkFeed]
  simp only [transformLoop, hcad, falsy, List.isEmpty_cons]
  cases hb : buildRecord obj a (clock 0) <;> simp [transformLoop]

theorem claim1_witness :
    transform_records (mkFeed "2024-05-01" [exampleObject]) "2024-05-01"
        (fun _ => "T")
      = (buildRecord exampleObject exampleApproach "T").map (fun r => [r]) :=
  claim1_first_approach.1 exampleObject exampleApproach [] "2024-05-01"
    (fun _ => "T") (by simp [exampleObject, Json.index, lookupStr])

/-- C2: a payload in which the queried date is absent from the feed section
transforms to the empty record sequence — no error. -/
theorem claim2_missing_date_empty (data : Json) (sub : List (String × Json))
    (date : String) (clock : ℕ → String)
    (h1 : Json.index data "near_earth_objects" = some (.obj sub))
    (h2 : lookupStr sub date = none) :
    transform_records data date clock = some [] := by
  simp [transform_records, h1, h2, transformLoop]

theorem claim2_witness :
    transform_records (Json.obj [("near_earth_objects", Json.obj [])])
      "2024-05-01" (fun _ => "T") = some [] :=
  claim2_missing_date_empty (Json.obj [("near_earth_objects", Json.obj [])])
    [] "2024-05-01" (fun _ => "T")
    (by simp [Json.index, lookupStr]) (by simp [lookupStr])

/-- An asteroid object whose close-approach list is present but empty. -/
def emptyCadObject : Json := .obj [("close_approach_data", .arr [])]

/-- C3: an object with an empty close-approach list is skipped (not an
error); a qualifying object contributes exactly its record, at the head, in
input order; and the returned record count never exceeds the object count
under the date key. -/
theorem claim3_skip_order_bound :
    (∀ (clock : ℕ → String) (o : Json) (rest : List Json) (k : ℕ),
      Json.index o "close_approach_data" = some (.arr []) →
      transformLoop clock (o :: rest) k = transformLoop clock rest k) ∧
    (∀ (clock : ℕ → String) (o : Json) (rest : List Json) (k : ℕ)
        (a : Json) (t : List Json) (r : AsteroidRecord),
      Json.index o "close_approach_data" = some (.arr (a :: t)) →
      buildRecord o a (clock k) = some r →
      transformLoop clock (o :: rest) k
        = (transformLoop clock rest (k + 1)).map (fun rs => r :: rs)) ∧
    (∀ (data : Json) (date : String) (clock : ℕ → String)
        (sub : List (String × Json)) (objs : List Json)
        (records : List AsteroidRecord),
      Json.index data "near_earth_objects" = some (.obj sub) →
      lookupStr sub date = some (.arr objs) →
      transform_records data date clock = some records →
      records.length ≤ objs.length) := by
  refine ⟨?_, ?_, ?_⟩
  · intro clock o rest k hcad
    simp [transformLoop, hcad, falsy]
  · intro clock o rest k a t r hcad hr
    simp [transformLoop, hcad, falsy, hr]
  · intro data date clock sub objs records h1 h2 h3
    simp only [transform_records, h1, h2, Option.getD_some] at h3
    exact transformLoop_length clock objs 0 records h3

theorem claim3_witness :
    (transformLoop (fun _ => "T") [emptyCadObject] 0
      = transformLoop (fun _ => "T") [] 0) ∧
    [exampleRecord "T"].length ≤ [exampleObject].length :=
  ⟨claim3_skip_order_bound.1 (fun _ => "T") emptyCadObject [] 0
     (by simp [emptyCadObject, Json.index, lookupStr]),
   claim3_skip_order_bound.2.2 examplePayload "2024-05-01" (fun _ => "T")
     [("2024-05-01", Json.arr [exampleObject])] [exampleObject]
     [exampleRecord "T"]
     (by simp [examplePayload, Json.index, lookupStr])
     (by simp [lookupStr]) (example_eval (fun _ => "T"))⟩

/-- C9 counterexample: the source reads `datetime.utcnow()` afresh for every
record, so with two objects in the batch and distinct successive clock
readings the two records carry distinct ingestion timestamps — the batch
does NOT carry one shared timestamp value. -/
theorem claim9_counterexample :
    ¬ ∀ (records : List AsteroidRecord),
        transform_records (mkFeed "2024-05-01" [exampleObject, exampleObject])
            "2024-05-01" (fun n => if n = 0 then "A" else "B") = some records →
        ∀ r ∈ records, ∀ s ∈ records,
          r.ingestion_timestamp = s.ingestion_timestamp := by
  intro h
  have h2 := example2_eval (fun n => if n = 0 then "A" else "B")
  have h3 := h _ h2 (exampleRecord "A") (by simp) (exampleRecord "B") (by simp)
  simp [exampleRecord] at h3

/-- C9 (amended): every record of the batch is stamped with the clock
reading taken while that record was built — the i-th record carries the i-th
`utcnow()` reading of the invocation, so the stamps agree only when those
readings coincide. -/
theorem claim9_amended (data : Json) (date : String) (clock : ℕ → String)
    (records : List AsteroidRecord)
    (h : transform_records data date clock = some records) :
    records.map (fun r => r.ingestion_timestamp)
      = (List.range records.length).map clock := by
  rw [List.range_eq_range']
  simp only [transform_records] at h
  split at h
  · split at h
    · exact transformLoop_timestamps clock _ 0 records h
    · exact absurd h (by simp)
  · exact absurd h (by simp)

theorem claim9_witness :
    [exampleRecord "T"].map (fun r => r.ingestion_timestamp)
      = (List.range [exampleRecord "T"].length).map (fun _ => "T") :=
  claim9_amended examplePayload "2024-05-01" (fun _ => "T")
    [exampleRecord "T"] (example_eval (fun _ => "T"))

/-- An asteroid object lacking the `close_approach_data` key. -/
def noCadObject : Json := .obj [("name", .str "x")]

/-- C10: the empty-default fallback is only for the missing date key: a
payload without `near_earth_objects` raises (no default), an object without
`close_approach_data` raises (no skip), and a successful transform
presupposes that every required field lookup, object-level and nested,
succeeded — missing required fields are lookup errors, never skipped or
defaulted. -/
theorem claim10_lookup_errors :
    (∀ (data : Json) (date : String) (clock : ℕ → String),
      Json.index data "near_earth_objects" = none →
      transform_records data date clock = none) ∧
    (∀ (o : Json) (date : String) (clock : ℕ → String),
      Json.index o "close_approach_data" = none →
      transform_records (mkFeed date [o]) date clock = none) ∧
    (∀ (o : Json) (date : String) (clock : ℕ → String)
        (records : List AsteroidRecord),
      transform_records (mkFeed date [o]) date clock = some records →
      ∀ (a : Json) (t : List Json),
        Json.index o "close_approach_data" = some (.arr (a :: t)) →
        (Json.index o "neo_reference_id").isSome ∧
        (Json.index o "name").isSome ∧
        (Json.index o "absolute_magnitude_h").isSome ∧
        (Json.index o "estimated_diameter").isSome ∧
        (Json.index o "is_potentially_hazardous_asteroid").isSome ∧
        (∀ ed, Json.index o "estimated_diameter" = some ed →
          (Json.index ed "kilometers").isSome ∧
          ∀ km, Json.index ed "kilometers" = some km →
            (Json.index km "estimated_diameter_min").isSome ∧
            (Json.index km "estimated_diameter_max").isSome) ∧
        (Json.index a "close_approach_date").isSome ∧
        (Json.index a "relative_velocity").isSome ∧
        (∀ rv, Json.index a "relative_velocity" = some rv →
          (Json.index rv "kilometers_per_second").isSome) ∧
        (Json.index a "miss_distance").isSome ∧
        (∀ md, Json.index a "miss_distance" = some md →
          (Json.index md "kilometers").isSome) ∧
        (Json.index a "orbiting_body").isSome) := by
  refine ⟨?_, ?_, ?_⟩
  · intro data date clock hnone
    simp [transform_records, hnone]
  · intro o date clock hcad
    rw [transform_mkFeed]
    simp [transformLoop, hcad]
  · intro o date clock records h a t hcad
    rw [transform_mkFeed] at h
    simp only [transformLoop, hcad, falsy, List.isEmpty_cons] at h
    cases hb : buildRecord o a (clock 0) with
    | none => rw [hb] at h; exact absurd h (by simp)
    | some r => exact buildRecord_lookups o a (clock 0) r hb

theorem claim10_witness :
    (transform_records (Json.arr []) "2024-05-01" (fun _ => "T") = none) ∧
    (transform_records (mkFeed "2024-05-01" [noCadObject]) "2024-05-01"
      (fun _ => "T") = none) ∧
    (Json.index exampleObject "neo_reference_id").isSome :=
  ⟨claim10_lookup_errors.1 (Json.arr []) "2024-05-01" (fun _ => "T")
     (by simp [Json.index]),
   claim10_lookup_errors.2.1 noCadObject "2024-05-01" (fun _ => "T")
     (by simp [noCadObject, Json.index, lookupStr]),
   (claim10_lookup_errors.2.2 exampleObject "2024-05-01" (fun _ => "T")
     [exampleRecord "T"] (example_eval (fun _ => "T")) exampleApproach []
     (by simp [exampleObject, Json.index, lookupStr])).1⟩

/-- A world for concrete runs: 2024-05-01, the spec §8 example payload, no
insert errors, constant clock. -/
def exampleWorld : World :=
  ⟨⟨2024, 5, 1⟩, examplePayload, fun _ => [], fun _ => "T"⟩

/-- C5: if any one of the three required configuration values is absent the
entry point answers with the fixed-message HTTP 500 and performs zero
external calls — no fetch, no archive, no insert. -/
theorem claim5_missing_config (cfg : Config) (w : World)
    (h : cfg.nasa_api_key = none ∨ cfg.bucket_name = none ∨
      cfg.bq_project = none) :
    (etl_nasa_neo cfg w).1
        = some (.err "Missing required environment variables" 500) ∧
    ∀ a ∈ (etl_nasa_neo cfg w).2, a.isExternal = false := by
  have hc : configPresent cfg = false := by
    rcases h with h | h | h <;> simp [configPresent, envTruthy, h]
  constructor
  · simp [etl_nasa_neo, hc]
  · intro x hx
    simp [etl_nasa_neo, hc] at hx
    rcases hx with h1 | h1 <;> simp [h1, Action.isExternal]

theorem claim5_witness :
    (etl_nasa_neo ⟨none, some "b", some "p"⟩ exampleWorld).1
        = some (.err "Missing required environment variables" 500) ∧
    ((etl_nasa_neo ⟨none, some "b", some "p"⟩ exampleWorld).2.all
      (fun a => !a.isExternal)) = true := by
  have h := claim5_missing_config ⟨none, some "b", some "p"⟩ exampleWorld
    (Or.inl rfl)
  refine ⟨h.1, ?_⟩
  rw [List.all_eq_true]
  intro a ha
  rw [h.2 a ha]
  rfl

/-- C8: on a successful run (configuration present, no step raises) the
entry point answers HTTP 200 with a JSON body holding exactly the status
"success", the transformed record count, and the queried UTC date string. -/
theorem claim8_success_response (cfg : Config) (w : World)
    (records : List AsteroidRecord)
    (hc : configPresent cfg = true)
    (ht : transform_records w.feedResponse (dateStr w.today) w.clock
      = some records) :
    (etl_nasa_neo cfg w).1
      = some (.ok (Json.obj [("status", .str "success"),
          ("rows_inserted", .num ⟨(records.length : ℤ), 0⟩),
          ("date", .str (dateStr w.today))]) 200) := by
  simp [etl_nasa_neo, hc, fetch_nasa_data, ht]

theorem claim8_witness :
    (etl_nasa_neo ⟨some "k", some "b", some "p"⟩ exampleWorld).1
      = some (.ok (Json.obj [("status", .str "success"),
          ("rows_inserted", .num ⟨1, 0⟩),
          ("date", .str (dateStr exampleWorld.today))]) 200) :=
  claim8_success_response ⟨some "k", some "b", some "p"⟩ exampleWorld
    [exampleRecord "T"] (by simp +decide [configPresent, envTruthy])
    (by rw [show dateStr exampleWorld.today = "2024-05-01" from rfl]
        exact example_eval (fun _ => "T"))

/-- C7: when the transform yields the empty record sequence the invocation
issues no warehouse insert at all — in particular no insert with an empty
row batch. -/
theorem claim7_loader_noop (cfg : Config) (w : World)
    (hc : configPresent cfg = true)
    (ht : transform_records w.feedResponse (dateStr w.today) w.clock
      = some []) :
    ∀ a ∈ (etl_nasa_neo cfg w).2, a.isInsert = false := by
  intro a ha
  simp [etl_nasa_neo, hc, fetch_nasa_data, ht, save_raw_to_gcs] at ha
  rcases ha with h | h | h | h | h <;> simp [h, Action.isInsert]

/-- A world whose feed response lacks the queried date key. -/
def noDateWorld : World :=
  ⟨⟨2024, 5, 1⟩, Json.obj [("near_earth_objects", Json.obj [])],
   fun _ => [], fun _ => "T"⟩

theorem claim7_witness :
    ((etl_nasa_neo ⟨some "k", some "b", some "p"⟩ noDateWorld).2.all
      (fun a => !a.isInsert)) = true := by
  have h := claim7_loader_noop ⟨some "k", some "b", some "p"⟩ noDateWorld
    (by simp +decide [configPresent, envTruthy])
    (by simp [noDateWorld, transform_records, Json.index, lookupStr,
      transformLoop])
  rw [List.all_eq_true]
  intro a ha
  rw [h a ha]
  rfl

/-- A world that reports one per-row insert error for any batch. -/
def errWorld : World :=
  ⟨⟨2024, 5, 1⟩, examplePayload, fun _ => ["row failed"], fun _ => "T"⟩

/-- C4: per-row errors reported by the insert API are logged by the Loader
and never raised, and the entry point's response is the unaltered success
response — HTTP 200, status "success", the transformed record count —
independent of those errors. -/
theorem claim4_insert_errors_swallowed (cfg : Config) (w : World)
    (records : List AsteroidRecord)
    (hc : configPresent cfg = true)
    (ht : transform_records w.feedResponse (dateStr w.today) w.clock
      = some records)
    (_hne : records ≠ [])
    (herr : w.insertErrors records ≠ []) :
    (Action.log ("Errors occurred: "
        ++ String.intercalate "; " (w.insertErrors records))
      ∈ load_to_bigquery cfg w records) ∧
    (etl_nasa_neo cfg w).1
      = some (.ok (Json.obj [("status", .str "success"),
          ("rows_inserted", .num ⟨(records.length : ℤ), 0⟩),
          ("date", .str (dateStr w.today))]) 200) ∧
    ∀ errs2 : List AsteroidRecord → List String,
      (etl_nasa_neo cfg w).1
        = (etl_nasa_neo cfg { w with insertErrors := errs2 }).1 := by
  have hie : (w.insertErrors records).isEmpty = false := by
    simpa using herr
  refine ⟨?_, ?_, ?_⟩
  · simp [load_to_bigquery, hie]
  · simp [etl_nasa_neo, hc, fetch_nasa_data, ht]
  · intro errs2
    simp [etl_nasa_neo, hc, fetch_nasa_data, ht]

theorem claim4_witness :
    Action.log ("Errors occurred: " ++ String.intercalate "; " ["row failed"])
      ∈ load_to_bigquery ⟨some "k", some "b", some "p"⟩ errWorld
          [exampleRecord "T"] :=
  (claim4_insert_errors_swallowed ⟨some "k", some "b", some "p"⟩ errWorld
    [exampleRecord "T"] (by simp +decide [configPresent, envTruthy])
    (by rw [show dateStr errWorld.today = "2024-05-01" from rfl]
        exact example_eval (fun _ => "T"))
    (by simp) (by simp [errWorld])).1

/-! ## Reading JSON back: a parser for the archived text (claim C6) -/

/-- Body of a JSON string after the opening quote: characters up to the
closing quote, a backslash taking the following character literally. -/
def parseStrChars : List Char → Option (List Char × List Char)
  | [] => none
  | c :: r =>
    if c = '"' then some ([], r)
    else if c = '\\' then
      match r with
      | [] => none
      | c2 :: r2 => (parseStrChars r2).map (fun p => (c2 :: p.1, p.2))
    else (parseStrChars r).map (fun p => (c :: p.1, p.2))

/-- One or more leading digits, split off the rest. -/
def readDigits (cs : List Char) : Option (List Char × List Char) :=
  let ds := cs.takeWhile Char.isDigit
  if ds.isEmpty then none else some (ds, cs.dropWhile Char.isDigit)

/-- A JSON number `[-] digits [. digits] [(e|E) [sign] digits]`, read into
mantissa-exponent form. -/
def parseNum (cs : List Char) : Option (Json × List Char) :=
  let neg := cs.head? = some '-'
  let cs1 := if cs.head? = some '-' then cs.tail else cs
  match readDigits cs1 with
  | none => none
  | some (ip, cs2) =>
    match (if cs2.head? = some '.' then readDigits cs2.tail
           else some ([], cs2)) with
    | none => none
    | some (fp, cs3) =>
      let mant : ℤ := if neg then -(natOfDigitsChars (ip ++ fp) : ℤ)
                      else (natOfDigitsChars (ip ++ fp) : ℤ)
      if cs3.head? = some 'e' || cs3.head? = some 'E' then
        let cs4 := cs3.tail
        let eneg := cs4.head? = some '-'
        let cs5 := if cs4.head? = some '-' then cs4.tail
                   else if cs4.head? = some '+' then cs4.tail else cs4
        match readDigits cs5 with
        | none => none
        | some (ed, cs6) =>
          let ex : ℤ := if eneg then -(natOfDigitsChars ed : ℤ)
                        else (natOfDigitsChars ed : ℤ)
          some (.num ⟨mant, ex - fp.length⟩, cs6)
      else some (.num ⟨mant, -(fp.length : ℤ)⟩, cs3)

mutual

/-- One JSON value, by fuel-bounded recursive descent. -/
def parseVal : ℕ → List Char → Option (Json × List Char)
  | 0, _ => none
  | _ + 1, [] => none
  | fuel + 1, c :: r =>
    if c = 'n' then
      match r with
      | 'u' :: 'l' :: 'l' :: r2 => some (.null, r2)
      | _ => none
    else if c = 't' then
      match r with
      | 'r' :: 'u' :: 'e' :: r2 => some (.bool true, r2)
      | _ => none
    else if c = 'f' then
      match r with
      | 'a' :: 'l' :: 's' :: 'e' :: r2 => some (.bool false, r2)
      | _ => none
    else if c = '"' then
      (parseStrChars r).map (fun p => (.str ⟨p.1⟩, p.2))
    else if c = '[' then
      if r.head? = some ']' then some (.arr [], r.tail)
      else (parseElems fuel r).map (fun p => (.arr p.1, p.2))
    else if c = lbrace then
      if r.head? = some rbrace then some (.obj [], r.tail)
      else (parseMembers fuel r).map (fun p => (.obj p.1, p.2))
    else parseNum (c :: r)

/-- Comma-separated array elements, consuming the closing bracket. -/
def parseElems : ℕ → List Char → Option (List Json × List Char)
  | 0, _ => none
  | fuel + 1, cs =>
    match parseVal fuel cs with
    | none => none
    | some (j, r) =>
      if r.head? = some ',' then
        (parseElems fuel r.tail).map (fun p => (j :: p.1, p.2))
      else if r.head? = some ']' then some ([j], r.tail)
      else none

/-- Comma-separated string-keyed members, consuming the closing brace. -/
def parseMembers : ℕ → List Char → Option (List (String × Json) × List Char)
  | 0, _ => none
  | fuel + 1, cs =>
    if cs.head? = some '"' then
      match parseStrChars cs.tail with
      | none => none
      | some (k, r2) =>
        if r2.head? = some ':' then
          match parseVal fuel r2.tail with
          | none => none
          | some (v, r4) =>
            if r4.head? = some ',' then
              (parseMembers fuel r4.tail).map (fun p => ((⟨k⟩, v) :: p.1, p.2))
            else if r4.head? = some rbrace then some ([(⟨k⟩, v)], r4.tail)
            else none
        else none
    else none

end

/-- Reading a complete JSON text, as `json.loads` does with the archived
blob: one value, no trailing characters. -/
def parseJson (s : String) : Option Json :=
  match parseVal (s.data.length + 1) s.data with
  | some (j, []) => some j
  | _ => none

/-- Digits print as digit characters. -/
theorem digitChar_isDigit (n : ℕ) (h : n < 10) : (digitChar n).isDigit = true := by
  interval_cases n <;> decide

/-- Reading a printed digit gives the digit back. -/
theorem charToDigit_digitChar (n : ℕ) (h : n < 10) : (digitChar n).toNat - 48 = n := by
  interval_cases n <;> decide

/-- Every character of a printed numeral is a digit. -/
theorem natChars_all_digits (n : ℕ) : ∀ c ∈ natChars n, c.isDigit = true := by
  intro c hc
  unfold natChars at hc
  split at hc
  · simp at hc
    subst hc
    decide
  · simp only [List.mem_map, List.mem_reverse] at hc
    obtain ⟨d, hd, hdc⟩ := hc
    rw [← hdc]
    exact digitChar_isDigit d (Nat.digits_lt_base (by norm_num) hd)

/-- A printed numeral is never empty. -/
theorem natChars_ne_nil (n : ℕ) : natChars n ≠ [] := by
  unfold natChars
  split
  · simp
  · simp [Nat.digits_ne_nil_iff_ne_zero]
    omega

/-- A printed numeral starts with a digit. -/
theorem natChars_head (n : ℕ) :
    ∃ c t, natChars n = c :: t ∧ c.isDigit = true := by
  cases hn : natChars n with
  | nil => exact absurd hn (natChars_ne_nil n)
  | cons c t =>
    exact ⟨c, t, rfl, natChars_all_digits n c (hn ▸ List.mem_cons_self c t)⟩

/-- Reading the printed numeral of `n` recovers `n`. -/
theorem natOfDigitsChars_natChars (n : ℕ) :
    natOfDigitsChars (natChars n) = n := by
  have foldl_digits : ∀ L : List ℕ, (∀ d ∈ L, d < 10) →
      natOfDigitsChars (L.reverse.map digitChar) = Nat.ofDigits 10 L := by
    intro L
    induction L with
    | nil => intro _; simp [natOfDigitsChars, Nat.ofDigits]
    | cons d T ih =>
      intro hL
      have hd10 : d < 10 := hL d (List.mem_cons_self d T)
      have ihh := ih (fun x hx => hL x (List.mem_cons_of_mem d hx))
      simp only [natOfDigitsChars] at ihh ⊢
      rw [List.reverse_cons, List.map_append, List.foldl_append, ihh]
      simp only [List.map_cons, List.map_nil, List.foldl_cons, List.foldl_nil]
      rw [Nat.ofDigits_cons, charToDigit_digitChar d hd10]
      ring
  by_cases h : n = 0
  · subst h
    simp [natChars, natOfDigitsChars]
  · rw [natChars, if_neg h,
      foldl_digits _ (fun d hd => Nat.digits_lt_base (by norm_num) hd),
      Nat.ofDigits_digits]

/-- `takeWhile`/`dropWhile` split an all-satisfying prefix before a failing
head. -/
theorem takeWhile_app (p : Char → Bool) (l r : List Char)
    (hl : ∀ c ∈ l, p c = true)
    (hr : ∀ c, r.head? = some c → p c = false) :
    (l ++ r).takeWhile p = l ∧ (l ++ r).dropWhile p = r := by
  induction l with
  | nil =>
    cases r with
    | nil => simp
    | cons c rr =>
      have := hr c rfl
      simp [List.takeWhile_cons, List.dropWhile_cons, this]
  | cons a t ih =>
    have ha := hl a (List.mem_cons_self a t)
    have iht := ih (fun c hc => hl c (List.mem_cons_of_mem a hc))
    simp [List.takeWhile_cons, List.dropWhile_cons, ha, iht]

/-- A digit character never equals a non-digit character. -/
theorem digit_ne (c : Char) (hc : c.isDigit = true) (x : Char)
    (hx : x.isDigit = false) : (c = x) = False :=
  eq_false (fun h => by subst h; rw [hc] at hx; cases hx)

/-- Unfolding equation: the empty input has no string body. -/
theorem parseStrChars_nil : parseStrChars [] = none := by
  rw [parseStrChars.eq_def]

/-- Unfolding equation of `parseStrChars` on a cons. -/
theorem parseStrChars_cons (c : Char) (r : List Char) :
    parseStrChars (c :: r) =
      (if c = '"' then some ([], r)
      else if c = '\\' then
        match r with
        | [] => none
        | c2 :: r2 => (parseStrChars r2).map (fun p => (c2 :: p.1, p.2))
      else (parseStrChars r).map (fun p => (c :: p.1, p.2))) := by
  rw [parseStrChars.eq_def]

/-- Reading an escaped string body up to its closing quote recovers the
characters exactly. -/
theorem parseStrChars_esc (l rest : List Char) :
    parseStrChars (escChars l ++ '"' :: rest) = some (l, rest) := by
  induction l with
  | nil => simp [escChars, parseStrChars_cons]
  | cons c t ih =>
    by_cases hq : c = '"'
    · subst hq
      simp [escChars, parseStrChars_cons, ih]
    · by_cases hb : c = '\\'
      · subst hb
        simp [escChars, parseStrChars_cons, ih]
      · simp [escChars, parseStrChars_cons, hq, hb, ih]

/-- The signed numeral, via the absolute value. -/
theorem intChars_eq (i : ℤ) :
    intChars i = (if i < 0 then ['-'] else []) ++ natChars i.natAbs := by
  unfold intChars
  split
  · rfl
  · have h2 : i.toNat = i.natAbs := by omega
    rw [h2]
    rfl

/-- Splitting a printed numeral off a tail that starts with no digit. -/
theorem readDigits_spec (n : ℕ) (rest : List Char)
    (hrest : ∀ c, rest.head? = some c → c.isDigit = false) :
    readDigits (natChars n ++ rest) = some (natChars n, rest) := by
  have h := takeWhile_app Char.isDigit (natChars n) rest
    (natChars_all_digits n) hrest
  have hne : (natChars n).isEmpty = false := by
    cases hnc : natChars n
    · exact absurd hnc (natChars_ne_nil n)
    · rfl
  simp [readDigits, h.1, h.2, hne]

/-- Reading a printed number, followed by anything not starting with a
digit, recovers the decimal exactly. -/
theorem parseNum_dumpsNum (d : Decimal) (rest : List Char)
    (hrest : ∀ c, rest.head? = some c → c.isDigit = false) :
    parseNum (dumpsNum d ++ rest) = some (.num d, rest) := by
  obtain ⟨m, e⟩ := d
  obtain ⟨c0, t0, hm, hc0⟩ := natChars_head m.natAbs
  obtain ⟨c1, t1, he, hc1⟩ := natChars_head e.natAbs
  have hA : ∀ Y : List Char, readDigits (natChars m.natAbs ++ 'e' :: Y)
      = some (natChars m.natAbs, 'e' :: Y) := fun Y =>
    readDigits_spec _ _ (by intro c hc; injection hc with hh; subst hh; decide)
  have hB : readDigits (natChars e.natAbs ++ rest)
      = some (natChars e.natAbs, rest) := readDigits_spec _ _ hrest
  have hmv : natOfDigitsChars (natChars m.natAbs ++ ([] : List Char))
      = m.natAbs := by
    rw [List.append_nil, natOfDigitsChars_natChars]
  have hmhead : ∀ Y : List Char, (natChars m.natAbs ++ Y).head? = some c0 :=
    fun Y => by rw [hm]; rfl
  have hehead : (natChars e.natAbs ++ rest).head? = some c1 := by
    rw [he]; rfl
  simp only [dumpsNum, intChars_eq]
  by_cases hmneg : m < 0 <;> by_cases heneg : e < 0 <;>
    simp only [if_pos, if_neg, hmneg, heneg, ite_true, ite_false,
      List.nil_append, List.cons_append, List.append_assoc] <;>
    simp only [parseNum, List.head?_cons, Option.some.injEq, hmhead,
      digit_ne c0 hc0 '-' (by decide), hehead,
      digit_ne c1 hc1 '-' (by decide), digit_ne c1 hc1 '+' (by decide),
      (show ('e' = '.') = False by decide), (show ('-' = '.') = False by decide),
      (show ('e' = 'e') = True by decide), (show ('-' = '-') = True by decide),
      (show ('-' = '+') = False by decide),
      ite_true, ite_false, if_false, if_true, List.tail_cons, hA, hB,
      Bool.or_self, Bool.or_false, Bool.false_or] <;>
    simp only [decide_True, decide_False, Bool.true_or, Bool.false_or,
      ite_true, ite_false, hmv, natOfDigitsChars_natChars, List.length_nil,
      Nat.cast_zero, Int.sub_zero, Option.some.injEq, Json.num.injEq,
      Decimal.mk.injEq, Prod.mk.injEq, and_true] <;>
    omega

mutual

/-- Parser-fuel measure of one value. -/
def jsize : Json → ℕ
  | .null => 1
  | .bool _ => 1
  | .num _ => 1
  | .str _ => 1
  | .arr xs => 1 + jsizeElems xs
  | .obj fs => 1 + jsizeMembers fs

/-- Parser-fuel measure of an element list. -/
def jsizeElems : List Json → ℕ
  | [] => 0
  | x :: t => 1 + max (jsize x) (jsizeElems t)

/-- Parser-fuel measure of a member list. -/
def jsizeMembers : List (String × Json) → ℕ
  | [] => 0
  | (_, v) :: t => 1 + max (jsize v) (jsizeMembers t)

end

/-- Every value has positive measure. -/
theorem jsize_pos (j : Json) : 1 ≤ jsize j := by
  cases j <;> simp [jsize]

/-- A printed number starts with a minus sign or a digit. -/
theorem dumpsNum_starts (d : Decimal) :
    ∃ c cs, dumpsNum d = c :: cs ∧ (c = '-' ∨ c.isDigit = true) := by
  obtain ⟨m, e⟩ := d
  rw [dumpsNum, intChars_eq]
  by_cases hm : (m : ℤ) < 0
  · rw [if_pos hm]
    exact ⟨'-', _, rfl, Or.inl rfl⟩
  · rw [if_neg hm]
    obtain ⟨c0, t0, h, hd⟩ := natChars_head m.natAbs
    rw [List.nil_append, h]
    exact ⟨c0, _, rfl, Or.inr hd⟩

/-- A number-start character is none of the other value-start characters. -/
theorem numStart_ne (c : Char) (h : c = '-' ∨ c.isDigit = true) :
    (c = 'n') = False ∧ (c = 't') = False ∧ (c = 'f') = False ∧
    (c = '"') = False ∧ (c = '[') = False ∧ (c = lbrace) = False := by
  rcases h with h | h
  · subst h
    refine ⟨by decide, by decide, by decide, by decide, by decide, by decide⟩
  · exact ⟨digit_ne c h 'n' (by decide), digit_ne c h 't' (by decide),
      digit_ne c h 'f' (by decide), digit_ne c h '"' (by decide),
      digit_ne c h '[' (by decide), digit_ne c h lbrace (by decide)⟩

/-- Every printed value starts with a character that closes no bracket. -/
theorem dumpsVal_head_props (j : Json) :
    ∃ c cs, dumpsVal j = c :: cs ∧ (c = ']') = False ∧ (c = rbrace) = False := by
  cases j with
  | null => exact ⟨'n', ['u', 'l', 'l'], by simp [dumpsVal], by decide, by decide⟩
  | bool b =>
    cases b
    · exact ⟨'f', ['a', 'l', 's', 'e'], by simp [dumpsVal], by decide, by decide⟩
    · exact ⟨'t', ['r', 'u', 'e'], by simp [dumpsVal], by decide, by decide⟩
  | num d =>
    obtain ⟨c, cs, hd, hstart⟩ := dumpsNum_starts d
    refine ⟨c, cs, by simp [dumpsVal, hd], ?_, ?_⟩
    · rcases hstart with h | h
      · subst h; decide
      · exact digit_ne c h ']' (by decide)
    · rcases hstart with h | h
      · subst h; decide
      · exact digit_ne c h rbrace (by decide)
  | str s =>
    exact ⟨'"', escChars s.data ++ ['"'], by simp [dumpsVal], by decide, by decide⟩
  | arr xs =>
    exact ⟨'[', dumpsElems xs ++ [']'], by simp [dumpsVal], by decide, by decide⟩
  | obj fs =>
    exact ⟨lbrace, dumpsMembers fs ++ [rbrace], by simp [dumpsVal], by decide,
      by decide⟩

/-- A non-empty element list prints as its head value followed by a tail. -/
theorem dumpsElems_cons (x : Json) (t : List Json) :
    ∃ Y, dumpsElems (x :: t) = dumpsVal x ++ Y := by
  cases t with
  | nil => exact ⟨[], by simp [dumpsElems]⟩
  | cons y t2 => exact ⟨',' :: dumpsElems (y :: t2), by simp [dumpsElems]⟩

/-- A non-empty member list prints starting with a quote. -/
theorem dumpsMembers_cons (k : String) (v : Json) (t : List (String × Json)) :
    ∃ Y, dumpsMembers ((k, v) :: t) = '"' :: Y := by
  cases t with
  | nil =>
    exact ⟨escChars k.data ++ '"' :: ':' :: dumpsVal v, by simp [dumpsMembers]⟩
  | cons m2 t2 =>
    exact ⟨escChars k.data ++ '"' :: ':'
        :: (dumpsVal v ++ ',' :: dumpsMembers (m2 :: t2)),
      by simp [dumpsMembers]⟩

/-- The grammar round-trip: with enough fuel, reading a printed value (and
a printed element or member list) recovers it exactly, leaving the rest. -/
theorem parse_dumps (fuel : ℕ) :
    (∀ (j : Json) (rest : List Char), jsize j ≤ fuel →
      (∀ c, rest.head? = some c → c.isDigit = false) →
      parseVal fuel (dumpsVal j ++ rest) = some (j, rest)) ∧
    (∀ (xs : List Json) (rest : List Char), xs ≠ [] → jsizeElems xs ≤ fuel →
      parseElems fuel (dumpsElems xs ++ ']' :: rest) = some (xs, rest)) ∧
    (∀ (fs : List (String × Json)) (rest : List Char), fs ≠ [] →
      jsizeMembers fs ≤ fuel →
      parseMembers fuel (dumpsMembers fs ++ rbrace :: rest) = some (fs, rest)) := by
  induction fuel with
  | zero =>
    refine ⟨?_, ?_, ?_⟩
    · intro j rest hs _
      have := jsize_pos j
      omega
    · intro xs rest hne hs
      cases xs with
      | nil => exact absurd rfl hne
      | cons x t => simp [jsizeElems] at hs
    · intro fs rest hne hs
      cases fs with
      | nil => exact absurd rfl hne
      | cons f t =>
        obtain ⟨k, v⟩ := f
        simp [jsizeMembers] at hs
  | succ fuel ih =>
    obtain ⟨ihV, ihE, ihM⟩ := ih
    refine ⟨?_, ?_, ?_⟩
    · -- one value
      intro j rest hs hrest
      cases j with
      | null => simp [dumpsVal, parseVal]
      | bool b => cases b <;> simp [dumpsVal, parseVal]
      | num d =>
        obtain ⟨c, cs, hd, hstart⟩ := dumpsNum_starts d
        obtain ⟨h1, h2, h3, h4, h5, h6⟩ := numStart_ne c hstart
        rw [show dumpsVal (.num d) = dumpsNum d by simp [dumpsVal], hd,
          List.cons_append]
        simp only [parseVal, h1, h2, h3, h4, h5, h6, ite_false, if_false]
        rw [← List.cons_append, ← hd]
        exact parseNum_dumpsNum d rest hrest
      | str s =>
        simp only [dumpsVal, List.cons_append, List.append_assoc,
          List.nil_append, parseVal,
          (show ('"' = 'n') = False by decide), (show ('"' = 't') = False by decide),
          (show ('"' = 'f') = False by decide), (show ('"' = '"') = True by decide),
          ite_false, ite_true, parseStrChars_esc, Option.map_some']
      | arr xs =>
        cases xs with
        | nil =>
          simp [dumpsVal, dumpsElems, parseVal, lbrace]
        | cons x t =>
          obtain ⟨Y, hY⟩ := dumpsElems_cons x t
          obtain ⟨c, cs, hdx, hne1, hne2⟩ := dumpsVal_head_props x
          have hsize : jsizeElems (x :: t) ≤ fuel := by
            simp only [jsize] at hs
            omega
          have hE := ihE (x :: t) rest (by simp) hsize
          rw [show dumpsVal (.arr (x :: t))
              = '[' :: (dumpsElems (x :: t) ++ [']']) by simp [dumpsVal]]
          rw [List.cons_append, List.append_assoc, List.singleton_append]
          simp only [parseVal,
            (show ('[' = 'n') = False by decide), (show ('[' = 't') = False by decide),
            (show ('[' = 'f') = False by decide), (show ('[' = '"') = False by decide),
            (show ('[' = '[') = True by decide), ite_false, ite_true]
          rw [hY, List.append_assoc, hdx, List.cons_append] at hE ⊢
          simp only [List.head?_cons, Option.some.injEq, hne1, ite_false,
            if_false, hE, Option.map_some']
      | obj fs =>
        cases fs with
        | nil =>
          simp [dumpsVal, dumpsMembers, parseVal, lbrace, rbrace]
        | cons f t =>
          obtain ⟨k, v⟩ := f
          obtain ⟨Y, hY⟩ := dumpsMembers_cons k v t
          have hsize : jsizeMembers ((k, v) :: t) ≤ fuel := by
            simp only [jsize] at hs
            omega
          have hM := ihM ((k, v) :: t) rest (by simp) hsize
          rw [show dumpsVal (.obj ((k, v) :: t))
              = lbrace :: (dumpsMembers ((k, v) :: t) ++ [rbrace])
            by simp [dumpsVal]]
          rw [List.cons_append, List.append_assoc, List.singleton_append]
          simp only [parseVal,
            (show (lbrace = 'n') = False by decide),
            (show (lbrace = 't') = False by decide),
            (show (lbrace = 'f') = False by decide),
            (show (lbrace = '"') = False by decide),
            (show (lbrace = '[') = False by decide),
            (show (lbrace = lbrace) = True by decide), ite_false, ite_true]
          rw [hY, List.cons_append] at hM ⊢
          simp only [List.head?_cons, Option.some.injEq,
            (show ('"' = rbrace) = False by decide), ite_false, if_false,
            hM, Option.map_some']
    · -- element list
      intro xs rest hne hs
      cases xs with
      | nil => exact absurd rfl hne
      | cons x t =>
        cases t with
        | nil =>
          have hx : jsize x ≤ fuel := by
            simp only [jsizeElems] at hs
            omega
          have hV := ihV x (']' :: rest) hx
            (by intro c hc; injection hc with hh; subst hh; decide)
          rw [show dumpsElems [x] = dumpsVal x by simp [dumpsElems]]
          simp only [parseElems, hV, List.head?_cons, Option.some.injEq,
            (show (']' = ',') = False by decide),
            (show (']' = ']') = True by decide),
            ite_false, ite_true, List.tail_cons]
        | cons y t2 =>
          have hx : jsize x ≤ fuel := by
            simp only [jsizeElems] at hs
            omega
          have ht : jsizeElems (y :: t2) ≤ fuel := by
            simp only [jsizeElems] at hs ⊢
            omega
          have hV := ihV x (',' :: (dumpsElems (y :: t2) ++ ']' :: rest)) hx
            (by intro c hc; injection hc with hh; subst hh; decide)
          have hE := ihE (y :: t2) rest (by simp) ht
          rw [show dumpsElems (x :: y :: t2)
              = dumpsVal x ++ ',' :: dumpsElems (y :: t2) by simp [dumpsElems]]
          rw [List.append_assoc, List.cons_append]
          simp only [parseElems, hV, List.head?_cons, Option.some.injEq,
            (show (',' = ',') = True by decide), ite_true, List.tail_cons,
            hE, Option.map_some']
    · -- member list
      intro fs rest hne hs
      cases fs with
      | nil => exact absurd rfl hne
      | cons f t =>
        obtain ⟨k, v⟩ := f
        cases t with
        | nil =>
          have hv : jsize v ≤ fuel := by
            simp only [jsizeMembers] at hs
            omega
          have hV := ihV v (rbrace :: rest) hv
            (by intro c hc; injection hc with hh; subst hh; decide)
          rw [show dumpsMembers [(k, v)]
              = '"' :: (escChars k.data ++ '"' :: ':' :: dumpsVal v)
            by simp [dumpsMembers]]
          rw [List.cons_append, List.append_assoc]
          simp only [parseMembers, List.head?_cons, Option.some.injEq,
            (show ('"' = '"') = True by decide),
            (show (':' = ':') = True by decide),
            (show (rbrace = ',') = False by decide),
            (show (rbrace = rbrace) = True by decide),
            ite_true, ite_false, if_false, List.tail_cons,
            List.cons_append, parseStrChars_esc, hV]
        | cons m2 t2 =>
          have hv : jsize v ≤ fuel := by
            simp only [jsizeMembers] at hs
            omega
          have ht : jsizeMembers (m2 :: t2) ≤ fuel := by
            simp only [jsizeMembers] at hs ⊢
            omega
          have hV := ihV v
            (',' :: (dumpsMembers (m2 :: t2) ++ rbrace :: rest)) hv
            (by intro c hc; injection hc with hh; subst hh; decide)
          have hM := ihM (m2 :: t2) rest (by simp) ht
          rw [show dumpsMembers ((k, v) :: m2 :: t2)
              = ('"' :: (escChars k.data ++ '"' :: ':' :: dumpsVal v))
                ++ ',' :: dumpsMembers (m2 :: t2) by simp [dumpsMembers]]
          rw [List.cons_append, List.append_assoc, List.cons_append,
            List.append_assoc]
          simp only [parseMembers, List.head?_cons, Option.some.injEq,
            (show ('"' = '"') = True by decide),
            (show (':' = ':') = True by decide),
            (show (',' = ',') = True by decide),
            ite_true, List.tail_cons, List.cons_append, List.append_assoc,
            parseStrChars_esc, hV, hM, Option.map_some']

/-- The fuel measure of a value is covered by the length of its printed
form. -/
theorem jsize_le_dumps (n : ℕ) :
    (∀ j : Json, jsize j ≤ n → jsize j ≤ (dumpsVal j).length) ∧
    (∀ xs : List Json, jsizeElems xs ≤ n →
      jsizeElems xs ≤ (dumpsElems xs).length + 1) ∧
    (∀ fs : List (String × Json), jsizeMembers fs ≤ n →
      jsizeMembers fs ≤ (dumpsMembers fs).length + 1) := by
  induction n with
  | zero =>
    refine ⟨?_, ?_, ?_⟩
    · intro j hs
      have := jsize_pos j
      omega
    · intro xs hs
      cases xs with
      | nil => simp [jsizeElems]
      | cons x t => simp [jsizeElems] at hs
    · intro fs hs
      cases fs with
      | nil => simp [jsizeMembers]
      | cons f t =>
        obtain ⟨k, v⟩ := f
        simp [jsizeMembers] at hs
  | succ n ih =>
    obtain ⟨ihV, ihE, ihM⟩ := ih
    refine ⟨?_, ?_, ?_⟩
    · intro j hs
      cases j with
      | null => simp [jsize, dumpsVal]
      | bool b => cases b <;> simp [jsize, dumpsVal]
      | num d =>
        obtain ⟨c, cs, hd, _⟩ := dumpsNum_starts d
        simp [jsize, dumpsVal, hd]
      | str s => simp [jsize, dumpsVal]
      | arr xs =>
        have hx : jsizeElems xs ≤ n := by
          simp only [jsize] at hs
          omega
        have := ihE xs hx
        simp only [jsize, dumpsVal, List.length_cons, List.length_append,
          List.length_singleton]
        omega
      | obj fs =>
        have hx : jsizeMembers fs ≤ n := by
          simp only [jsize] at hs
          omega
        have := ihM fs hx
        simp only [jsize, dumpsVal, List.length_cons, List.length_append,
          List.length_singleton]
        omega
    · intro xs hs
      cases xs with
      | nil => simp [jsizeElems]
      | cons x t =>
        cases t with
        | nil =>
          have hx : jsize x ≤ n := by
            simp only [jsizeElems] at hs
            omega
          have := ihV x hx
          simp only [jsizeElems, dumpsElems]
          omega
        | cons y t2 =>
          have hx : jsize x ≤ n := by
            simp only [jsizeElems] at hs
            omega
          have ht : jsizeElems (y :: t2) ≤ n := by
            simp only [jsizeElems] at hs ⊢
            omega
          have h1 := ihV x hx
          have h2 := ihE (y :: t2) ht
          simp only [jsizeElems, dumpsElems, List.length_append,
            List.length_cons] at h2 ⊢
          omega
    · intro fs hs
      cases fs with
      | nil => simp [jsizeMembers]
      | cons f t =>
        obtain ⟨k, v⟩ := f
        cases t with
        | nil =>
          have hv : jsize v ≤ n := by
            simp only [jsizeMembers] at hs
            omega
          have := ihV v hv
          simp only [jsizeMembers, dumpsMembers, List.length_cons,
            List.length_append]
          omega
        | cons m2 t2 =>
          have hv : jsize v ≤ n := by
            simp only [jsizeMembers] at hs
            omega
          have ht : jsizeMembers (m2 :: t2) ≤ n := by
            simp only [jsizeMembers] at hs ⊢
            omega
          have h1 := ihV v hv
          have h2 := ihM (m2 :: t2) ht
          simp only [jsizeMembers, dumpsMembers, List.length_cons,
            List.length_append] at h2 ⊢
          omega

/-- Reading the archived text back yields the archived value. -/
theorem parseJson_dumps (j : Json) : parseJson (dumps j) = some j := by
  have hsize : jsize j ≤ (dumpsVal j).length :=
    (jsize_le_dumps (jsize j)).1 j le_rfl
  have h := (parse_dumps ((dumpsVal j).length + 1)).1 j [] (by omega)
    (by intro c hc; exact Option.noConfusion hc)
  rw [List.append_nil] at h
  show (match parseVal ((dumps j).data.length + 1) (dumps j).data with
    | some (j, []) => some j
    | _ => none) = some j
  rw [show (dumps j).data = dumpsVal j from rfl, h]

/-- C6: archiving is lossless — the text the Archiver writes to blob
storage, parsed back as JSON, is structurally equal to the payload passed
in; in particular `json.dumps` followed by a parse is the identity on every
payload. -/
theorem claim6_archive_roundtrip :
    (∀ j : Json, parseJson (dumps j) = some j) ∧
    (∀ (cfg : Config) (data : Json) (d : Date) (bucket path content : String),
      Action.gcsWrite bucket path content ∈ save_raw_to_gcs cfg data d →
      parseJson content = some data) := by
  refine ⟨parseJson_dumps, ?_⟩
  intro cfg data d bucket path content hmem
  simp only [save_raw_to_gcs, List.mem_cons, List.mem_singleton] at hmem
  rcases hmem with h | h
  · injection h with h1 h2 h3
    rw [h3]
    exact parseJson_dumps data
  · exact absurd h (by simp)

theorem claim6_witness :
    parseJson (dumps examplePayload) = some examplePayload :=
  claim6_archive_roundtrip.2 ⟨some "k", some "b", some "p"⟩ examplePayload
    ⟨2024, 5, 1⟩ (optStr (some "b")) (blobPath ⟨2024, 5, 1⟩)
    (dumps examplePayload) (by simp [save_raw_to_gcs])

end NeoEtl



